import Mathlib

/-!
Verification of the semantic-retrieval core of the `pka` personal book catalog.

The development shallowly embeds the Go source:
* `internal/storage/sqlite.go` — the catalog store; rows of the `books` table
  are modelled by `PKA.Row`, the embedding BLOB column by `Option (List Nat)`
  (a byte list, `none` = SQL NULL).  SQL-driver I/O errors are outside the
  model; the logic of each query is embedded exactly.
* `internal/book/book.go`, `internal/book/service.go` — `PKA.Book`,
  duplicate detection and the `Add`/`Update` orchestration.
* the search engine (`package search`) — cosine similarity, `Search` and
  `FindSimilar`.  Go `float32`/`float64` values are modelled as exact
  rationals (ℚ); `math.Sqrt` and the final division are modelled in ℝ.
-/

namespace PKA

/-! ## Vector codec (sqlite.go: encodeEmbedding / decodeEmbedding)

Blobs are byte lists.  Relevant bytes: `,` = 44, `-` = 45, `.` = 46,
`+` = 43, digits `0`–`9` = 48–57. -/

/-- `strings.Split(string(blob), ",")`: split a byte list at every comma.
Like Go's `Split`, the result always has one part more than the number of
commas; splitting the empty blob gives `[[]]` (Go: `[""]`). -/
def splitOnComma : List Nat → List (List Nat)
  | [] => [[]]
  | c :: rest =>
    match splitOnComma rest with
    | [] => [[]]
    | p :: ps => if c = 44 then [] :: p :: ps else (c :: p) :: ps

/-- `strings.Join(parts, ",")`. -/
def joinWithComma : List (List Nat) → List Nat
  | [] => []
  | [p] => p
  | p :: q :: ps => p ++ 44 :: joinWithComma (q :: ps)

/-- Decimal digits of `n`, most significant first (empty for 0). -/
def digitsBE (n : Nat) : List Nat := (Nat.digits 10 n).reverse

/-- ASCII bytes of the decimal digits of `n`, most significant first. -/
def digitBytes (n : Nat) : List Nat := (digitsBE n).map (fun d => 48 + d)

/-- Decimal text of a natural number; `fmt` always prints at least one
integer digit, so 0 renders as `"0"`. -/
def natBytes (n : Nat) : List Nat := if n = 0 then [48] else digitBytes n

/-- The six fractional digits printed by `%f`, zero-padded on the left. -/
def fracBytes (r : Nat) : List Nat :=
  List.replicate (6 - (Nat.digits 10 r).length) 48 ++ digitBytes r

/-- Go `fmt.Sprintf("%f", v)`: fixed-point decimal text with six fractional
digits.  Modelled over ℚ, the printed value is the input rounded to a
multiple of 10⁻⁶ (ℚ has no signed zero, so a negative value that rounds to
zero prints without the sign). -/
def formatFloat (x : ℚ) : List Nat :=
  let n : Int := round (x * 1000000)
  (if n < 0 then [45] else []) ++
    natBytes (n.natAbs / 1000000) ++ 46 :: fracBytes (n.natAbs % 1000000)

/-- ASCII decimal digit test. -/
def isDigitByte (c : Nat) : Bool := 48 ≤ c && c ≤ 57

/-- Read a digit-byte run as a natural number. -/
def bytesToNat (cs : List Nat) : Nat := cs.foldl (fun a c => a * 10 + (c - 48)) 0

/-- Leading sign of a scanned number, and the remaining input. -/
def parseSign (s : List Nat) : Bool × List Nat :=
  match s with
  | [] => (false, [])
  | c :: rest =>
    if c = 45 then (true, rest)
    else if c = 43 then (false, rest) else (false, c :: rest)

/-- Fractional digit run, present only right after a decimal point. -/
def parseFrac (rest : List Nat) : List Nat :=
  match rest with
  | c :: r => if c = 46 then r.takeWhile isDigitByte else []
  | [] => []

/-- Go `fmt.Sscanf(p, "%f", &v)` as used by `decodeEmbedding`: scan an
optionally signed fixed-point decimal prefix; when nothing scans the
destination keeps its zero value, so the result is 0.  Trailing bytes are
ignored, as `Sscanf` ignores input past its verbs. -/
def parseFloat (s : List Nat) : ℚ :=
  let sr := parseSign s
  let ip := sr.2.takeWhile isDigitByte
  let fp := parseFrac (sr.2.dropWhile isDigitByte)
  if ip.length = 0 ∧ fp.length = 0 then 0
  else
    let mag : ℚ := (bytesToNat ip : ℚ) + (bytesToNat fp : ℚ) / ((10 : ℚ) ^ fp.length)
    if sr.1 then -mag else mag

/-- `encodeEmbedding`: format every component with `%f` and join with commas. -/
def encodeEmbedding (embedding : List ℚ) : List Nat :=
  joinWithComma (embedding.map formatFloat)

/-- `decodeEmbedding`: split on commas and scan each part; the Go function
always returns a nil error, unparsable parts simply stay 0. -/
def decodeEmbedding (blob : List Nat) : List ℚ :=
  (splitOnComma blob).map parseFloat

/-- The embedding field produced by `scanBook`: the blob column is decoded
only when it is present and non-empty. -/
def scanEmbedding (blob : Option (List Nat)) : List ℚ :=
  match blob with
  | none => []
  | some bl => if 0 < bl.length then decodeEmbedding bl else []

/-! ## Data model (book.go, sqlite.go) -/

/-- A row of the `books` table.  Timestamps are abstracted to integers
(`dateRead = 0` models Go's zero time / NULL `date_read`); the embedding
BLOB column is `none` for SQL NULL. -/
structure Row where
  id : Int
  title : String
  author : String
  isbn : String
  description : String
  genre : String
  tags : List String
  coverURL : String
  pageCount : Int
  currentPage : Int
  rating : Int
  status : String
  notes : String
  dateAdded : Int
  dateRead : Int
  adaptations : List String
  embedding : Option (List Nat)
  deriving Repr, DecidableEq

/-- `book.Book` as materialised by `scanBook`: same fields with the
embedding decoded to a vector. -/
structure Book where
  id : Int
  title : String
  author : String
  isbn : String
  description : String
  genre : String
  tags : List String
  coverURL : String
  pageCount : Int
  currentPage : Int
  rating : Int
  status : String
  notes : String
  dateAdded : Int
  dateRead : Int
  adaptations : List String
  embedding : List ℚ
  deriving Repr, DecidableEq

/-- `scanBook` (sqlite.go): copy the columns and decode the embedding blob. -/
def scanBook (r : Row) : Book :=
  { id := r.id, title := r.title, author := r.author, isbn := r.isbn,
    description := r.description, genre := r.genre, tags := r.tags,
    coverURL := r.coverURL, pageCount := r.pageCount,
    currentPage := r.currentPage, rating := r.rating, status := r.status,
    notes := r.notes, dateAdded := r.dateAdded, dateRead := r.dateRead,
    adaptations := r.adaptations, embedding := scanEmbedding r.embedding }

/-- `GetAllWithEmbeddings` (sqlite.go): `WHERE embedding IS NOT NULL`,
then scan each row. -/
def GetAllWithEmbeddings (rows : List Row) : List Book :=
  (rows.filter fun r => r.embedding.isSome).map scanBook

/-! ## Store lookups and mutations (sqlite.go) -/

/-- SQLite's `LOWER()` folds only the ASCII range. -/
def asciiLowerChar (c : Char) : Char :=
  if 65 ≤ c.toNat ∧ c.toNat ≤ 90 then Char.ofNat (c.toNat + 32) else c

/-- ASCII lower-casing of a string, as applied by `LOWER()` in the queries. -/
def asciiLower (s : String) : String := String.mk (s.data.map asciiLowerChar)

/-- `FindByISBN` (sqlite.go): empty ISBN short-circuits to no match, else
the first row with exactly this ISBN (`WHERE isbn = ? LIMIT 1`). -/
def FindByISBN (rows : List Row) (isbn : String) : Option Book :=
  if isbn = "" then none
  else (rows.find? fun r => r.isbn == isbn).map scanBook

/-- `FindByTitleAuthor` (sqlite.go): empty title or author short-circuits,
else the first row matching case-insensitively on both fields
(`WHERE LOWER(title) = LOWER(?) AND LOWER(author) = LOWER(?) LIMIT 1`). -/
def FindByTitleAuthor (rows : List Row) (title author : String) : Option Book :=
  if title = "" ∨ author = "" then none
  else
    (rows.find? fun r =>
      asciiLower r.title == asciiLower title &&
        asciiLower r.author == asciiLower author).map scanBook

/-- The catalog store: the table rows plus the next `AUTOINCREMENT` id. -/
structure Store where
  rows : List Row
  nextId : Int
  deriving Repr, DecidableEq

/-- The row written by `Create` (sqlite.go): every field except the
embedding column, which only `UpdateEmbedding` ever sets. -/
def rowOfBook (id : Int) (b : Book) : Row :=
  { id := id, title := b.title, author := b.author, isbn := b.isbn,
    description := b.description, genre := b.genre, tags := b.tags,
    coverURL := b.coverURL, pageCount := b.pageCount,
    currentPage := b.currentPage, rating := b.rating, status := b.status,
    notes := b.notes, dateAdded := b.dateAdded, dateRead := b.dateRead,
    adaptations := b.adaptations, embedding := none }

/-- `Create` (sqlite.go): insert the row, assign the fresh id to the book. -/
def createBook (st : Store) (b : Book) : Store × Book :=
  ({ rows := st.rows ++ [rowOfBook st.nextId b], nextId := st.nextId + 1 },
    { b with id := st.nextId })

/-- `UpdateEmbedding` (sqlite.go): overwrite only the embedding column of
the rows matching the id. -/
def updateEmbeddingOp (st : Store) (id : Int) (emb : List ℚ) : Store :=
  { st with rows := st.rows.map fun r =>
      if r.id = id then { r with embedding := some (encodeEmbedding emb) } else r }

/-- Error taxonomy of the store, as the specification names it. -/
inductive StorageError where
  | notFound
  | failure
  deriving Repr, DecidableEq

/-- Effect of the `UPDATE books SET ... WHERE id = ?` statement on one row:
all columns of the SET list are replaced; `id`, `date_added` and
`embedding` are not in that list. -/
def updateRow (b : Book) (r : Row) : Row :=
  if r.id = b.id then
    { r with
      title := b.title
      author := b.author
      isbn := b.isbn
      description := b.description
      genre := b.genre
      tags := b.tags
      coverURL := b.coverURL
      pageCount := b.pageCount
      currentPage := b.currentPage
      rating := b.rating
      status := b.status
      notes := b.notes
      dateRead := b.dateRead
      adaptations := b.adaptations }
  else r

/-- `Update` (sqlite.go): executes the UPDATE statement and returns the
driver error only.  The affected-row count is never inspected, so the
function succeeds even when no row has the given id. -/
def storageUpdate (rows : List Row) (b : Book) : Except StorageError (List Row) :=
  Except.ok (rows.map (updateRow b))

/-! ## Catalog service (service.go) -/

/-- `CheckDuplicate` (service.go): ISBN rule first, then the
case-insensitive title+author rule; first match wins. -/
def checkDuplicate (rows : List Row) (b : Book) : Option (Book × String) :=
  match (if b.isbn ≠ "" then FindByISBN rows b.isbn else none) with
  | some existing => some (existing, "ISBN")
  | none =>
    match
      (if b.title ≠ "" ∧ b.author ≠ "" then
        FindByTitleAuthor rows b.title b.author
      else none) with
    | some existing => some (existing, "title+author")
    | none => none

/-- `buildEmbeddingText` (service.go). -/
def buildEmbeddingText (b : Book) : String :=
  let t0 := b.title ++ " by " ++ b.author
  let t1 := if b.description ≠ "" then t0 ++ ". " ++ b.description else t0
  let t2 := if b.genre ≠ "" then t1 ++ ". Genre: " ++ b.genre else t1
  let t3 :=
    if 0 < b.tags.length then t2 ++ ". Tags: " ++ String.intercalate ", " b.tags
    else t2
  if b.notes ≠ "" then t3 ++ ". Notes: " ++ b.notes else t3

/-- Errors surfaced by `Service.Add`: the `DuplicateError` carrying the
existing book and the match reason, or a failed embedding request
(`ProviderError`); there is no validation error in the code. -/
inductive AddError where
  | duplicate (existing : Book) (reason : String)
  | provider
  deriving Repr, DecidableEq

/-- `Service.Add` (service.go): duplicate check, create, generate the
embedding for the derived text, persist the vector.  The embedder is the
opaque `Generate` call, modelled as a function argument; the returned pair
is the error (if any) together with the final catalog state, so the
partial-failure state after a failed `Generate` is kept. -/
def serviceAdd (gen : String → Except Unit (List ℚ)) (st : Store) (b : Book) :
    Option AddError × Store :=
  match checkDuplicate st.rows b with
  | some (existing, reason) => (some (.duplicate existing reason), st)
  | none =>
    let cr := createBook st b
    match gen (buildEmbeddingText cr.2) with
    | .error _ => (some .provider, cr.1)
    | .ok emb => (none, updateEmbeddingOp cr.1 cr.2.id emb)

/-! ## Retrieval engine (package search)

Vector components are exact rationals; the accumulating sums the Go code
keeps in `float64` are the rational dot product and squared norms, and the
final `math.Sqrt`/division step is taken in ℝ. -/

/-- A `book.SearchResult`. -/
structure SearchResult where
  book : Book
  similarity : ℝ

/-- `cosineSimilarity` (search engine): 0 on mismatched lengths, 0 when
either squared norm is zero, else the dot product over the product of the
Euclidean norms. -/
noncomputable def cosineSimilarity (a b : List ℚ) : ℝ :=
  if a.length ≠ b.length then 0
  else if (a.map fun x => x * x).sum = 0 ∨ (b.map fun x => x * x).sum = 0 then 0
  else
    (((List.zipWith (fun x y => x * y) a b).sum : ℚ) : ℝ) /
      (Real.sqrt (((a.map fun x => x * x).sum : ℚ) : ℝ) *
        Real.sqrt (((b.map fun x => x * x).sum : ℚ) : ℝ))

/-- The comparator passed to `sort.Slice` in both entry points, as the
Boolean order the sorted output satisfies: descending similarity. -/
noncomputable def resultLE (r s : SearchResult) : Bool :=
  decide (s.similarity ≤ r.similarity)

/-- `sort.Slice(results, ...Similarity > ...)`: some permutation of the
input sorted by non-increasing similarity (Go's sort is unstable, so any
sorted permutation is a faithful model; we use merge sort). -/
noncomputable def sortResults (rs : List SearchResult) : List SearchResult :=
  rs.mergeSort resultLE

/-- The final truncation of both entry points:
`if limit > 0 && len(results) > limit { results = results[:limit] }`. -/
def truncateResults (limit : Int) (rs : List SearchResult) : List SearchResult :=
  if 0 < limit ∧ limit < (rs.length : Int) then rs.take limit.toNat else rs

/-- The scoring loop of `Search`: skip books with empty embeddings, score
the rest against the query embedding. -/
noncomputable def scoreBooks (queryEmbedding : List ℚ) (books : List Book) :
    List SearchResult :=
  (books.filter fun b => b.embedding.length != 0).map fun b =>
    { book := b, similarity := cosineSimilarity queryEmbedding b.embedding }

/-- `Engine.Search`: the embedder's `Generate` output and the repository's
`GetAllWithEmbeddings` rows enter as arguments (their error returns
propagate in Go and produce no result list). -/
noncomputable def engineSearch (queryEmbedding : List ℚ) (books : List Book)
    (limit : Int) : List SearchResult :=
  truncateResults limit (sortResults (scoreBooks queryEmbedding books))

/-- The candidate list of `FindSimilar`: the first book carrying the seed
id is the target (the search loop breaks on the first hit); without a
target, or with a target that has no embedding, there is nothing to score
(Go returns `nil` there, which equals sorting and truncating the empty
list).  Scored books skip the seed id and empty embeddings. -/
noncomputable def similarPool (books : List Book) (bookID : Int) :
    List SearchResult :=
  match books.find? (fun b => b.id == bookID) with
  | none => []
  | some target =>
    if target.embedding.length = 0 then []
    else
      (books.filter fun b => !(b.id == bookID) && b.embedding.length != 0).map
        fun b =>
          { book := b, similarity := cosineSimilarity target.embedding b.embedding }

/-- `Engine.FindSimilar`. -/
noncomputable def engineFindSimilar (books : List Book) (bookID : Int)
    (limit : Int) : List SearchResult :=
  truncateResults limit (sortResults (similarPool books bookID))

/-- Non-increasing similarity, the order of returned result lists. -/
def resultGE (r s : SearchResult) : Prop := s.similarity ≤ r.similarity

/-! ## Concrete sample data for witnesses and counterexamples -/

/-- A stored record of the catalog. -/
def rowA : Row :=
  { id := 1, title := "Dune", author := "Frank Herbert",
    isbn := "9780441013593", description := "", genre := "", tags := [],
    coverURL := "", pageCount := 0, currentPage := 0, rating := 0,
    status := "read", notes := "", dateAdded := 10, dateRead := 20,
    adaptations := [], embedding := none }

/-- A candidate sharing `rowA`'s ISBN but nothing else. -/
def candA : Book :=
  { id := 0, title := "Other", author := "Someone", isbn := "9780441013593",
    description := "", genre := "", tags := [], coverURL := "",
    pageCount := 0, currentPage := 0, rating := 0, status := "want_to_read",
    notes := "", dateAdded := 30, dateRead := 0, adaptations := [],
    embedding := [] }

/-- A candidate matching `rowA` case-insensitively on title and author. -/
def candB : Book :=
  { id := 0, title := "DUNE", author := "frank HERBERT", isbn := "",
    description := "", genre := "", tags := [], coverURL := "",
    pageCount := 0, currentPage := 0, rating := 0, status := "want_to_read",
    notes := "", dateAdded := 30, dateRead := 0, adaptations := [],
    embedding := [] }

/-- An update payload whose id (1) matches `rowA` and misses `rowB9`. -/
def bookC9 : Book :=
  { id := 1, title := "New Title", author := "New Author", isbn := "x",
    description := "d", genre := "g", tags := ["t"], coverURL := "c",
    pageCount := 5, currentPage := 3, rating := 4, status := "reading",
    notes := "n", dateAdded := 99, dateRead := 7, adaptations := ["a"],
    embedding := [] }

/-- A stored record whose id (2) differs from `bookC9`'s. -/
def rowB9 : Row :=
  { id := 2, title := "Other", author := "Else", isbn := "", description := "",
    genre := "", tags := [], coverURL := "", pageCount := 0, currentPage := 0,
    rating := 0, status := "read", notes := "", dateAdded := 1, dateRead := 0,
    adaptations := [], embedding := none }

/-- An invalid candidate: empty title, rating 17, unknown status. -/
def badBook : Book :=
  { id := 0, title := "", author := "A", isbn := "", description := "",
    genre := "", tags := [], coverURL := "", pageCount := 0, currentPage := 0,
    rating := 17, status := "bogus", notes := "", dateAdded := 0, dateRead := 0,
    adaptations := [], embedding := [] }

/-- A stored record with no embedding yet. -/
def rowE : Row :=
  { id := 1, title := "t", author := "a", isbn := "", description := "",
    genre := "", tags := [], coverURL := "", pageCount := 0, currentPage := 0,
    rating := 0, status := "read", notes := "", dateAdded := 0, dateRead := 0,
    adaptations := [], embedding := none }

/-- A stored record with a non-empty embedding blob ("1"). -/
def rowF : Row :=
  { id := 3, title := "u", author := "b", isbn := "", description := "",
    genre := "", tags := [], coverURL := "", pageCount := 0, currentPage := 0,
    rating := 0, status := "read", notes := "", dateAdded := 0, dateRead := 0,
    adaptations := [], embedding := some [49] }

/-- A book whose embedding is empty (seed for a FindSimilar witness). -/
def bookT : Book :=
  { id := 1, title := "Seed", author := "S", isbn := "", description := "",
    genre := "", tags := [], coverURL := "", pageCount := 0, currentPage := 0,
    rating := 0, status := "read", notes := "", dateAdded := 0, dateRead := 0,
    adaptations := [], embedding := [] }

/-! ## Helper lemmas -/

theorem splitOnComma_ne_nil (bl : List Nat) : splitOnComma bl ≠ [] := by
  cases bl with
  | nil => simp [splitOnComma]
  | cons c rest =>
    simp only [splitOnComma]
    cases h : splitOnComma rest with
    | nil => simp
    | cons p ps =>
      by_cases hc : c = 44 <;> simp [hc]

theorem decodeEmbedding_ne_nil (bl : List Nat) : decodeEmbedding bl ≠ [] := by
  have h := splitOnComma_ne_nil bl
  simpa [decodeEmbedding] using h

/-! ## Claim C4 -/

/-- C4: cosine similarity is exactly 0 on mismatched vector lengths and 0
whenever either vector has zero (squared) norm, e.g. when one vector is
all zeros; the function is total, so no division by zero and no error
occurs in either case. -/
theorem cosineSimilarity_edge_cases (a b : List ℚ) :
    (a.length ≠ b.length → cosineSimilarity a b = 0)
    ∧ ((a.map fun x => x * x).sum = 0 ∨ (b.map fun x => x * x).sum = 0 →
        cosineSimilarity a b = 0)
    ∧ ((∀ x ∈ a, x = 0) → cosineSimilarity a b = 0) := by
  refine ⟨fun h => by simp [cosineSimilarity, h], fun h => ?_, fun h => ?_⟩
  · by_cases hl : a.length ≠ b.length
    · simp [cosineSimilarity, hl]
    · simp [cosineSimilarity, hl, h]
  · have hz : (a.map fun x => x * x).sum = 0 := by
      apply List.sum_eq_zero
      intro y hy
      obtain ⟨x, hx, rfl⟩ := List.mem_map.mp hy
      simp [h x hx]
    by_cases hl : a.length ≠ b.length
    · simp [cosineSimilarity, hl]
    · simp [cosineSimilarity, hl, hz]

/-- Witness for C4 at concrete inputs. -/
theorem cosineSimilarity_edge_cases_witness :
    cosineSimilarity [1] [1, 2] = 0 ∧ cosineSimilarity [0, 0] [3, 4] = 0 :=
  ⟨(cosineSimilarity_edge_cases [1] [1, 2]).1 (by decide),
    (cosineSimilarity_edge_cases [0, 0] [3, 4]).2.2 (by decide)⟩

/-! ## Claim C3 -/

/-- C3: whenever the duplicate detector reports a match, `Service.Add`
fails with the `DuplicateError` carrying exactly the existing record and
the match reason, and the catalog state is unchanged. -/
theorem serviceAdd_duplicate_guard (gen : String → Except Unit (List ℚ))
    (st : Store) (b existing : Book) (reason : String)
    (h : checkDuplicate st.rows b = some (existing, reason)) :
    serviceAdd gen st b = (some (AddError.duplicate existing reason), st) := by
  simp [serviceAdd, h]

/-- Witness for C3: a concrete ISBN duplicate is rejected and the store
keeps its single row. -/
theorem serviceAdd_duplicate_guard_witness :
    serviceAdd (fun _ => Except.ok []) ⟨[rowA], 2⟩ candA
      = (some (AddError.duplicate (scanBook rowA) "ISBN"), ⟨[rowA], 2⟩) :=
  serviceAdd_duplicate_guard (fun _ => Except.ok []) ⟨[rowA], 2⟩ candA
    (scanBook rowA) "ISBN" (by decide)

/-! ## Claim C9 (corrected) -/

/-- C9 counterexample: updating a record whose id exists nowhere (the
store is empty) does not fail with `NotFound` — the statement reports
success and the catalog is unchanged, because `Update` never inspects the
affected-row count. -/
theorem storageUpdate_missing_id_no_error :
    storageUpdate [] bookC9 = Except.ok [] := rfl

/-- C9 amended: the store's update never fails with `NotFound`; updating a
nonexistent id is a silent no-op, and for every stored record whose id
matches it fully replaces all mutable fields (every column except `id`,
`date_added` and `embedding`, which are untouched). -/
theorem storageUpdate_spec (rows : List Row) (b : Book) :
    storageUpdate rows b = Except.ok (rows.map (updateRow b))
    ∧ ((∀ r ∈ rows, r.id ≠ b.id) → storageUpdate rows b = Except.ok rows)
    ∧ ∀ r ∈ rows, r.id = b.id →
        (updateRow b r).title = b.title ∧ (updateRow b r).author = b.author
        ∧ (updateRow b r).isbn = b.isbn
        ∧ (updateRow b r).description = b.description
        ∧ (updateRow b r).genre = b.genre ∧ (updateRow b r).tags = b.tags
        ∧ (updateRow b r).coverURL = b.coverURL
        ∧ (updateRow b r).pageCount = b.pageCount
        ∧ (updateRow b r).currentPage = b.currentPage
        ∧ (updateRow b r).rating = b.rating
        ∧ (updateRow b r).status = b.status ∧ (updateRow b r).notes = b.notes
        ∧ (updateRow b r).dateRead = b.dateRead
        ∧ (updateRow b r).adaptations = b.adaptations
        ∧ (updateRow b r).id = r.id ∧ (updateRow b r).dateAdded = r.dateAdded
        ∧ (updateRow b r).embedding = r.embedding := by
  refine ⟨rfl, fun h => ?_, fun r hr hid => ?_⟩
  · have hmap : rows.map (updateRow b) = rows.map id :=
      List.map_congr_left fun r hr => by simp [updateRow, h r hr]
    simp [storageUpdate, hmap]
  · simp [updateRow, hid]

/-- Witness for C9's amended statement at concrete inputs. -/
theorem storageUpdate_spec_witness :
    storageUpdate [rowB9] bookC9 = Except.ok [rowB9]
    ∧ (updateRow bookC9 rowA).title = bookC9.title :=
  ⟨(storageUpdate_spec [rowB9] bookC9).2.1 (by decide),
    ((storageUpdate_spec [rowA] bookC9).2.2 rowA (List.mem_singleton_self rowA)
      (by decide)).1⟩

/-! ## Claim C10 (corrected) -/

/-- C10 counterexample: `Service.Add` accepts and persists a candidate
with an empty title, rating 17 and an unknown status — no
`ValidationFailure` is surfaced before (or after) persistence. -/
theorem serviceAdd_no_validation_cx :
    (serviceAdd (fun _ => Except.ok [1]) ⟨[], 1⟩ badBook).1 = none
    ∧ ((serviceAdd (fun _ => Except.ok [1]) ⟨[], 1⟩ badBook).2.rows.map
        fun r => (r.title, r.rating, r.status)) = [("", 17, "bogus")] := by
  constructor <;> rfl

/-- C10 amended: neither `Service.Add` nor the store's `Create` validates
any field — every non-duplicate candidate whose embedding request
succeeds is persisted as-is, whether or not its title, author, rating or
status are valid; required-field and status checks exist only in the CLI
front end, and nothing checks the rating. -/
theorem serviceAdd_persists_unvalidated (gen : String → Except Unit (List ℚ))
    (st : Store) (b : Book) (emb : List ℚ)
    (hdup : checkDuplicate st.rows b = none)
    (hgen : gen (buildEmbeddingText { b with id := st.nextId }) = Except.ok emb) :
    (serviceAdd gen st b).1 = none
    ∧ (serviceAdd gen st b).2.rows.length = st.rows.length + 1
    ∧ ∃ r ∈ (serviceAdd gen st b).2.rows,
        r.id = st.nextId ∧ r.title = b.title ∧ r.author = b.author
        ∧ r.rating = b.rating ∧ r.status = b.status := by
  have hres : serviceAdd gen st b
      = (none, updateEmbeddingOp (createBook st b).1 st.nextId emb) := by
    simp [serviceAdd, hdup, createBook, hgen]
  refine ⟨by simp [hres], by simp [hres, updateEmbeddingOp, createBook], ?_⟩
  refine ⟨{ rowOfBook st.nextId b with
    embedding := some (encodeEmbedding emb) }, ?_, by simp [rowOfBook]⟩
  rw [hres]
  simp only [updateEmbeddingOp, createBook, List.map_append]
  refine List.mem_append_right _ ?_
  simp [rowOfBook]

/-- Witness for C10's amended statement: the invalid candidate goes
straight into the catalog. -/
theorem serviceAdd_persists_unvalidated_witness :
    (serviceAdd (fun _ => Except.ok [1]) ⟨[], 1⟩ badBook).1 = none
    ∧ (serviceAdd (fun _ => Except.ok [1]) ⟨[], 1⟩ badBook).2.rows.length
        = ([] : List Row).length + 1
    ∧ ∃ r ∈ (serviceAdd (fun _ => Except.ok [1]) ⟨[], 1⟩ badBook).2.rows,
        r.id = (1 : Int) ∧ r.title = badBook.title ∧ r.author = badBook.author
        ∧ r.rating = badBook.rating ∧ r.status = badBook.status :=
  serviceAdd_persists_unvalidated (fun _ => Except.ok [1]) ⟨[], 1⟩ badBook [1]
    (by decide) rfl

/-! ## Claim C6 (corrected) -/

/-- C6 counterexample: the malformed one-byte blob "a" decodes to the
one-element zero vector `[0]`, not to the empty vector. -/
theorem decodeEmbedding_malformed_cx :
    decodeEmbedding [97] = [0] ∧ decodeEmbedding [97] ≠ [] := by decide

/-- C6 amended: decoding never raises or propagates an error; an empty or
NULL blob yields no embedding because the record scanner decodes only
non-empty blobs, while `decodeEmbedding` itself maps any non-empty blob —
malformed or not — to a non-empty vector with one component per
comma-separated part, unparsable parts decoding quietly to 0. -/
theorem decode_quiet_spec (bl : List Nat) :
    scanEmbedding none = []
    ∧ scanEmbedding (some []) = []
    ∧ (bl ≠ [] → scanEmbedding (some bl) = decodeEmbedding bl)
    ∧ decodeEmbedding bl ≠ []
    ∧ (decodeEmbedding bl).length = (splitOnComma bl).length := by
  refine ⟨rfl, rfl, fun h => ?_, decodeEmbedding_ne_nil bl, ?_⟩
  · have : 0 < bl.length := List.length_pos.mpr h
    simp [scanEmbedding, this]
  · simp [decodeEmbedding]

/-- Witness for C6's amended statement at a concrete malformed blob. -/
theorem decode_quiet_spec_witness :
    scanEmbedding (some [97]) = decodeEmbedding [97] :=
  (decode_quiet_spec [97]).2.2.1 (by decide)

/-! ## Claim C8 (corrected) -/

/-- C8 counterexample: storing the empty vector writes an empty, non-NULL
blob, and `GetAllWithEmbeddings` then returns that record with an absent
(empty) embedding vector. -/
theorem getAllWithEmbeddings_empty_blob_cx :
    (GetAllWithEmbeddings (updateEmbeddingOp ⟨[rowE], 2⟩ 1 []).rows).map
      (fun b => b.embedding) = [[]] := by decide

/-- C8 amended: `GetAllWithEmbeddings` returns exactly the records whose
embedding column is present (non-NULL); every record stored with a
non-empty blob comes back with a non-empty vector, but a record stored
with an empty blob is returned with an empty embedding vector. -/
theorem getAllWithEmbeddings_spec (rows : List Row) :
    (∀ b ∈ GetAllWithEmbeddings rows,
        ∃ r ∈ rows, r.embedding.isSome ∧ b = scanBook r)
    ∧ (∀ r ∈ rows, r.embedding.isSome → scanBook r ∈ GetAllWithEmbeddings rows)
    ∧ ∀ r ∈ rows, ∀ bl, r.embedding = some bl → bl ≠ [] →
        (scanBook r).embedding ≠ [] := by
  refine ⟨fun b hb => ?_, fun r hr h => ?_, fun r hr bl hbl hne => ?_⟩
  · obtain ⟨r, hr, rfl⟩ := List.mem_map.mp hb
    exact ⟨r, (List.mem_filter.mp hr).1,
      by simpa using (List.mem_filter.mp hr).2, rfl⟩
  · exact List.mem_map_of_mem scanBook (List.mem_filter.mpr ⟨hr, by simpa using h⟩)
  · have : 0 < bl.length := List.length_pos.mpr hne
    simp [scanBook, scanEmbedding, hbl, this, decodeEmbedding_ne_nil]

/-- Witness for C8's amended statement at a concrete store. -/
theorem getAllWithEmbeddings_spec_witness :
    scanBook rowF ∈ GetAllWithEmbeddings [rowF] :=
  (getAllWithEmbeddings_spec [rowF]).2.1 rowF (List.mem_singleton_self rowF)
    (by decide)

/-! ## Claim C2 -/

/-- C2: duplicate detection applies its rules in a fixed order with the
first match winning: a candidate with a non-empty ISBN that some stored
record shares is reported with reason "ISBN"; otherwise a candidate with
non-empty title and author matching some stored record case-insensitively
on both is reported with reason "title+author"; otherwise no match. -/
theorem checkDuplicate_rule_order (rows : List Row) (b : Book) :
    (b.isbn ≠ "" → (∃ r ∈ rows, r.isbn = b.isbn) →
      ∃ r ∈ rows, r.isbn = b.isbn
        ∧ checkDuplicate rows b = some (scanBook r, "ISBN"))
    ∧ ((b.isbn = "" ∨ ∀ r ∈ rows, r.isbn ≠ b.isbn) →
        b.title ≠ "" → b.author ≠ "" →
        (∃ r ∈ rows, asciiLower r.title = asciiLower b.title
          ∧ asciiLower r.author = asciiLower b.author) →
        ∃ r ∈ rows, asciiLower r.title = asciiLower b.title
          ∧ asciiLower r.author = asciiLower b.author
          ∧ checkDuplicate rows b = some (scanBook r, "title+author"))
    ∧ ((b.isbn = "" ∨ ∀ r ∈ rows, r.isbn ≠ b.isbn) →
        (b.title = "" ∨ b.author = ""
          ∨ ∀ r ∈ rows, ¬(asciiLower r.title = asciiLower b.title
              ∧ asciiLower r.author = asciiLower b.author)) →
        checkDuplicate rows b = none) := by
  have hguard : ∀ hno : b.isbn = "" ∨ ∀ r ∈ rows, r.isbn ≠ b.isbn,
      (if b.isbn ≠ "" then FindByISBN rows b.isbn else none) = none := by
    intro hno
    rcases hno with h0 | hall
    · simp [h0]
    · by_cases hne : b.isbn = ""
      · simp [hne]
      · have : rows.find? (fun r => r.isbn == b.isbn) = none :=
          List.find?_eq_none.mpr fun r hr => by
            simpa using hall r hr
        simp [hne, FindByISBN, this]
  refine ⟨fun hisbn hex => ?_, fun hno ht ha hex => ?_, fun hno hta => ?_⟩
  · cases hfind : rows.find? (fun r => r.isbn == b.isbn) with
    | none =>
      exfalso
      obtain ⟨r, hr, hre⟩ := hex
      exact absurd (by simpa using hre) (List.find?_eq_none.mp hfind r hr)
    | some r =>
      refine ⟨r, List.mem_of_find?_eq_some hfind,
        by simpa using List.find?_some hfind, ?_⟩
      simp [checkDuplicate, hisbn, FindByISBN, hfind]
  · cases hfind : rows.find? (fun r =>
        asciiLower r.title == asciiLower b.title
          && asciiLower r.author == asciiLower b.author) with
    | none =>
      exfalso
      obtain ⟨r, hr, hrt, hra⟩ := hex
      have := List.find?_eq_none.mp hfind r hr
      simp [hrt, hra] at this
    | some r =>
      have hp := List.find?_some hfind
      simp only [Bool.and_eq_true, beq_iff_eq] at hp
      refine ⟨r, List.mem_of_find?_eq_some hfind, hp.1, hp.2, ?_⟩
      simp [checkDuplicate, hguard hno, ht, ha, FindByTitleAuthor, hfind]
  · rcases hta with h0 | h0 | hall
    · simp [checkDuplicate, hguard hno, h0]
    · simp [checkDuplicate, hguard hno, h0]
    · by_cases hte : b.title = ""
      · simp [checkDuplicate, hguard hno, hte]
      · by_cases hae : b.author = ""
        · simp [checkDuplicate, hguard hno, hae]
        · have hfind : rows.find? (fun r =>
              asciiLower r.title == asciiLower b.title
                && asciiLower r.author == asciiLower b.author) = none :=
            List.find?_eq_none.mpr fun r hr => by
              have := hall r hr
              simpa using fun h1 h2 => this ⟨h1, h2⟩
          simp [checkDuplicate, hguard hno, hte, hae, FindByTitleAuthor, hfind]

/-- Witness for C2: the ISBN rule and the case-insensitive title+author
rule both fire against the concrete catalog `[rowA]`. -/
theorem checkDuplicate_rule_order_witness :
    (∃ r ∈ [rowA], r.isbn = candA.isbn
      ∧ checkDuplicate [rowA] candA = some (scanBook r, "ISBN"))
    ∧ ∃ r ∈ [rowA], asciiLower r.title = asciiLower candB.title
        ∧ asciiLower r.author = asciiLower candB.author
        ∧ checkDuplicate [rowA] candB = some (scanBook r, "title+author") :=
  ⟨(checkDuplicate_rule_order [rowA] candA).1 (by decide)
      ⟨rowA, List.mem_singleton_self rowA, by decide⟩,
    (checkDuplicate_rule_order [rowA] candB).2.1 (Or.inl (by decide))
      (by decide) (by decide)
      ⟨rowA, List.mem_singleton_self rowA, by decide, by decide⟩⟩

/-! ## Claim C5 -/

/-- C5: `FindSimilar` never returns the seed record (anything carrying the
seed id is skipped), and when the seed is absent from the embedded pool or
has no embedding the result is empty — the code returns no error there. -/
theorem findSimilar_excludes_seed (books : List Book) (bookID limit : Int) :
    (∀ r ∈ engineFindSimilar books bookID limit, r.book.id ≠ bookID)
    ∧ (books.find? (fun b => b.id == bookID) = none →
        engineFindSimilar books bookID limit = [])
    ∧ ∀ target, books.find? (fun b => b.id == bookID) = some target →
        target.embedding = [] → engineFindSimilar books bookID limit = [] := by
  refine ⟨fun r hr => ?_, fun hfind => ?_, fun target hfind hemb => ?_⟩
  · have hmem : r ∈ sortResults (similarPool books bookID) := by
      have := hr
      unfold engineFindSimilar truncateResults at this
      split at this
      · exact List.take_subset _ _ this
      · exact this
    have hpool : r ∈ similarPool books bookID := by
      simpa [sortResults] using hmem
    unfold similarPool at hpool
    split at hpool
    · simp at hpool
    · split at hpool
      · simp at hpool
      · obtain ⟨c, hc, rfl⟩ := List.mem_map.mp hpool
        have := (List.mem_filter.mp hc).2
        simp only [Bool.and_eq_true, Bool.not_eq_true', beq_eq_false_iff_ne,
          ne_eq] at this
        simpa using this.1
  · simp [engineFindSimilar, similarPool, hfind, sortResults, truncateResults]
  · have : target.embedding.length = 0 := by simp [hemb]
    simp [engineFindSimilar, similarPool, hfind, this, sortResults,
      truncateResults]

/-- Witness for C5: with no stored seed the result is empty, and with a
seed that lacks an embedding the result is empty too. -/
theorem findSimilar_excludes_seed_witness :
    engineFindSimilar [] 1 5 = [] ∧ engineFindSimilar [bookT] 1 5 = [] :=
  ⟨(findSimilar_excludes_seed [] 1 5).2.1 rfl,
    (findSimilar_excludes_seed [bookT] 1 5).2.2 bookT rfl rfl⟩

/-! ## Claim C1 -/

theorem sortResults_sorted (rs : List SearchResult) :
    (sortResults rs).Pairwise resultGE := by
  have h := @List.sorted_mergeSort SearchResult resultLE
    (fun a b c h1 h2 => by
      simp only [resultLE, decide_eq_true_eq] at *
      exact le_trans h2 h1)
    (fun a b => by
      simp only [resultLE, Bool.or_eq_true, decide_eq_true_eq]
      exact le_total b.similarity a.similarity)
    rs
  exact h.imp fun hab => by simpa [resultLE] using hab

theorem sortResults_perm (rs : List SearchResult) : (sortResults rs).Perm rs :=
  List.mergeSort_perm rs resultLE

theorem truncate_sort_sorted (limit : Int) (rs : List SearchResult) :
    (truncateResults limit (sortResults rs)).Pairwise resultGE := by
  unfold truncateResults
  split
  · exact List.Pairwise.sublist (List.take_sublist _ _)
      (sortResults_sorted rs)
  · exact sortResults_sorted rs

theorem truncate_sort_length (limit : Int) (rs : List SearchResult)
    (h : 0 < limit) :
    (truncateResults limit (sortResults rs)).length ≤ limit.toNat := by
  unfold truncateResults
  by_cases hc : 0 < limit ∧ limit < ((sortResults rs).length : Int)
  · rw [if_pos hc]
    simp [List.length_take]
  · rw [if_neg hc]
    have hlen : ((sortResults rs).length : Int) ≤ limit := by
      rcases not_and_or.mp hc with h1 | h2
      · exact absurd h h1
      · omega
    omega

theorem truncate_sort_top (limit : Int) (rs : List SearchResult) :
    ∀ r ∈ truncateResults limit (sortResults rs), ∀ s ∈ rs,
      s ∉ truncateResults limit (sortResults rs) → resultGE r s := by
  intro r hr s hs hns
  have hsS : s ∈ sortResults rs := (sortResults_perm rs).symm.subset hs
  by_cases hc : 0 < limit ∧ limit < ((sortResults rs).length : Int)
  · unfold truncateResults at hr hns
    rw [if_pos hc] at hr hns
    have hsplit := List.take_append_drop limit.toNat (sortResults rs)
    have hmem : s ∈ (sortResults rs).take limit.toNat
        ++ (sortResults rs).drop limit.toNat := by
      rw [hsplit]
      exact hsS
    have hdrop : s ∈ (sortResults rs).drop limit.toNat := by
      rcases List.mem_append.mp hmem with h | h
      · exact absurd h hns
      · exact h
    have hpw : ((sortResults rs).take limit.toNat
        ++ (sortResults rs).drop limit.toNat).Pairwise resultGE := by
      rw [hsplit]
      exact sortResults_sorted rs
    exact (List.pairwise_append.mp hpw).2.2 r hr s hdrop
  · unfold truncateResults at hns
    rw [if_neg hc] at hns
    exact absurd hsS hns

theorem truncate_sort_all (limit : Int) (rs : List SearchResult)
    (h : limit ≤ 0) :
    (truncateResults limit (sortResults rs)).Perm rs := by
  unfold truncateResults
  rw [if_neg (by omega)]
  exact sortResults_perm rs

/-- C1: both search entry points return lists sorted by non-increasing
similarity; with a positive limit the list has at most `limit` elements
and every returned result scores at least as high as every scored
candidate left out; with `limit ≤ 0` the list is a permutation of all
scored candidates, so every one of them appears. -/
theorem search_results_sorted_bounded (q : List ℚ) (books : List Book)
    (bookID limit : Int) :
    ((engineSearch q books limit).Pairwise resultGE
      ∧ (engineFindSimilar books bookID limit).Pairwise resultGE)
    ∧ (0 < limit →
        (engineSearch q books limit).length ≤ limit.toNat
        ∧ (engineFindSimilar books bookID limit).length ≤ limit.toNat)
    ∧ ((∀ r ∈ engineSearch q books limit, ∀ s ∈ scoreBooks q books,
          s ∉ engineSearch q books limit → resultGE r s)
      ∧ ∀ r ∈ engineFindSimilar books bookID limit,
          ∀ s ∈ similarPool books bookID,
            s ∉ engineFindSimilar books bookID limit → resultGE r s)
    ∧ (limit ≤ 0 →
        (engineSearch q books limit).Perm (scoreBooks q books)
        ∧ (engineFindSimilar books bookID limit).Perm
            (similarPool books bookID)) :=
  ⟨⟨truncate_sort_sorted limit (scoreBooks q books),
      truncate_sort_sorted limit (similarPool books bookID)⟩,
    fun h => ⟨truncate_sort_length limit (scoreBooks q books) h,
      truncate_sort_length limit (similarPool books bookID) h⟩,
    ⟨truncate_sort_top limit (scoreBooks q books),
      truncate_sort_top limit (similarPool books bookID)⟩,
    fun h => ⟨truncate_sort_all limit (scoreBooks q books) h,
      truncate_sort_all limit (similarPool books bookID) h⟩⟩

/-- Witness for C1 at concrete inputs, discharging both limit regimes. -/
theorem search_results_sorted_bounded_witness :
    (engineSearch [] [bookT] 2).length ≤ (2 : Int).toNat
    ∧ (engineSearch [] [bookT] 0).Perm (scoreBooks [] [bookT]) :=
  ⟨((search_results_sorted_bounded [] [bookT] 1 2).2.1 (by decide)).1,
    ((search_results_sorted_bounded [] [bookT] 1 0).2.2.2 (by decide)).1⟩

/-! ## Claim C7: codec round-trip

The byte-level helper lemmas below establish that formatting with six
fixed decimals and scanning back recovers exactly the input rounded to a
multiple of 10⁻⁶. -/

theorem mem_digitBytes_bounds {n c : Nat} (hc : c ∈ digitBytes n) :
    48 ≤ c ∧ c ≤ 57 := by
  obtain ⟨d, hd, rfl⟩ := List.mem_map.mp hc
  have : d < 10 := Nat.digits_lt_base (by norm_num)
    (List.mem_reverse.mp (by simpa [digitsBE] using hd))
  omega

theorem mem_natBytes_bounds {n c : Nat} (hc : c ∈ natBytes n) :
    48 ≤ c ∧ c ≤ 57 := by
  unfold natBytes at hc
  split at hc
  · simp at hc
    omega
  · exact mem_digitBytes_bounds hc

theorem mem_fracBytes_bounds {n c : Nat} (hc : c ∈ fracBytes n) :
    48 ≤ c ∧ c ≤ 57 := by
  unfold fracBytes at hc
  rcases List.mem_append.mp hc with h | h
  · have := List.eq_of_mem_replicate h
    omega
  · exact mem_digitBytes_bounds h

theorem natBytes_ne_nil (n : Nat) : natBytes n ≠ [] := by
  unfold natBytes
  split
  · simp
  · simp only [digitBytes, digitsBE, ne_eq, List.map_eq_nil_iff,
      List.reverse_eq_nil_iff]
    exact Nat.digits_ne_nil_iff_ne_zero.mpr (by assumption)

theorem takeWhile_append_all {p : Nat → Bool} :
    ∀ (xs : List Nat), (∀ x ∈ xs, p x = true) →
      ∀ (y : Nat) (ys : List Nat), p y = false →
      ((xs ++ y :: ys).takeWhile p = xs
        ∧ (xs ++ y :: ys).dropWhile p = y :: ys)
  | [], _, y, ys, hy => by simp [List.takeWhile_cons, List.dropWhile_cons, hy]
  | x :: xs, h, y, ys, hy => by
    have hx : p x = true := h x (by simp)
    have ih := takeWhile_append_all xs (fun z hz => h z (by simp [hz])) y ys hy
    simp [List.takeWhile_cons, List.dropWhile_cons, hx, ih.1, ih.2]

theorem takeWhile_all (p : Nat → Bool) :
    ∀ (xs : List Nat), (∀ x ∈ xs, p x = true) → xs.takeWhile p = xs
  | [], _ => rfl
  | x :: xs, h => by
    have hx : p x = true := h x (by simp)
    simp [List.takeWhile_cons, hx,
      takeWhile_all p xs fun z hz => h z (by simp [hz])]

theorem foldr_eq_ofDigits (l : List Nat) :
    l.foldr (fun d a => a * 10 + d) 0 = Nat.ofDigits 10 l := by
  induction l with
  | nil => simp [Nat.ofDigits]
  | cons d l ih =>
    simp only [List.foldr_cons, ih, Nat.ofDigits_cons]
    ring

theorem bytesToNat_digitBytes (n : Nat) : bytesToNat (digitBytes n) = n := by
  unfold bytesToNat digitBytes digitsBE
  rw [List.foldl_map, List.foldl_reverse]
  have : ((Nat.digits 10 n).foldr
      (fun x y => y * 10 + (48 + x - 48)) 0)
      = (Nat.digits 10 n).foldr (fun d a => a * 10 + d) 0 := by
    simp
  rw [this, foldr_eq_ofDigits, Nat.ofDigits_digits]

theorem bytesToNat_natBytes (n : Nat) : bytesToNat (natBytes n) = n := by
  unfold natBytes
  split
  · simp [bytesToNat]
    omega
  · exact bytesToNat_digitBytes n

theorem bytesToNat_fracBytes (r : Nat) : bytesToNat (fracBytes r) = r := by
  unfold fracBytes bytesToNat
  rw [List.foldl_append]
  have hz : ∀ (k : Nat),
      List.foldl (fun a c => a * 10 + (c - 48)) 0 (List.replicate k 48) = 0 := by
    intro k
    induction k with
    | zero => rfl
    | succ k ih => simpa [List.replicate_succ] using ih
  rw [hz]
  exact bytesToNat_digitBytes r

theorem fracBytes_length {r : Nat} (hr : r < 1000000) :
    (fracBytes r).length = 6 := by
  have hlen : (Nat.digits 10 r).length ≤ 6 := by
    by_cases h0 : r = 0
    · simp [h0]
    · rw [Nat.digits_len 10 r (by norm_num) h0]
      have := (Nat.lt_pow_iff_log_lt (by norm_num) h0).mp
        (show r < 10 ^ 6 by omega)
      omega
  simp only [fracBytes, List.length_append, List.length_replicate,
    digitBytes, digitsBE, List.length_map, List.length_reverse]
  omega

theorem parseFloat_signed_body (q r : Nat) (hr : r < 1000000) :
    parseFloat (natBytes q ++ 46 :: fracBytes r) = (q : ℚ) + (r : ℚ) / 1000000
    ∧ parseFloat (45 :: (natBytes q ++ 46 :: fracBytes r))
        = -((q : ℚ) + (r : ℚ) / 1000000) := by
  have h46 : isDigitByte 46 = false := by decide
  have hdig : ∀ c ∈ natBytes q, isDigitByte c = true := by
    intro c hc
    have := mem_natBytes_bounds hc
    simp only [isDigitByte, Bool.and_eq_true, decide_eq_true_eq]
    omega
  have hfdig : ∀ c ∈ fracBytes r, isDigitByte c = true := by
    intro c hc
    have := mem_fracBytes_bounds hc
    simp only [isDigitByte, Bool.and_eq_true, decide_eq_true_eq]
    omega
  have hbody := takeWhile_append_all (natBytes q) hdig 46 (fracBytes r) h46
  have hfrac : parseFrac (46 :: fracBytes r) = fracBytes r := by
    simp [parseFrac, takeWhile_all isDigitByte (fracBytes r) hfdig]
  have hlen0 : ¬((natBytes q).length = 0 ∧ (fracBytes r).length = 0) := by
    intro h
    exact natBytes_ne_nil q (List.length_eq_zero.mp h.1)
  have hval : (bytesToNat (natBytes q) : ℚ)
      + (bytesToNat (fracBytes r) : ℚ) / (10 : ℚ) ^ (fracBytes r).length
      = (q : ℚ) + (r : ℚ) / 1000000 := by
    rw [bytesToNat_natBytes, bytesToNat_fracBytes, fracBytes_length hr]
    norm_num
  have hsign : parseSign (natBytes q ++ 46 :: fracBytes r)
      = (false, natBytes q ++ 46 :: fracBytes r) := by
    obtain ⟨c, cs, hcs⟩ := List.exists_cons_of_ne_nil (natBytes_ne_nil q)
    have hcmem : c ∈ natBytes q := by
      rw [hcs]
      exact List.mem_cons_self c cs
    have hb := mem_natBytes_bounds hcmem
    rw [hcs]
    simp only [List.cons_append, parseSign]
    rw [if_neg (by omega), if_neg (by omega)]
  have hsign45 : parseSign (45 :: (natBytes q ++ 46 :: fracBytes r))
      = (true, natBytes q ++ 46 :: fracBytes r) := by
    simp [parseSign]
  constructor
  · simp only [parseFloat, hsign, hbody.1, hbody.2, hfrac]
    rw [if_neg hlen0]
    simpa using hval
  · simp only [parseFloat, hsign45, hbody.1, hbody.2, hfrac]
    rw [if_neg hlen0]
    simpa using congrArg Neg.neg hval

theorem parseFloat_formatFloat (x : ℚ) :
    parseFloat (formatFloat x) = ((round (x * 1000000) : ℤ) : ℚ) / 1000000 := by
  have hrlt : (round (x * 1000000)).natAbs % 1000000 < 1000000 :=
    Nat.mod_lt _ (by norm_num)
  have hsb := parseFloat_signed_body ((round (x * 1000000)).natAbs / 1000000)
    ((round (x * 1000000)).natAbs % 1000000) hrlt
  have hqr : (((round (x * 1000000)).natAbs / 1000000 : Nat) : ℚ)
      + (((round (x * 1000000)).natAbs % 1000000 : Nat) : ℚ) / 1000000
      = (((round (x * 1000000)).natAbs : Nat) : ℚ) / 1000000 := by
    have hdm := Nat.div_add_mod (round (x * 1000000)).natAbs 1000000
    have h : (((round (x * 1000000)).natAbs : Nat) : ℚ)
        = 1000000 * (((round (x * 1000000)).natAbs / 1000000 : Nat) : ℚ)
          + (((round (x * 1000000)).natAbs % 1000000 : Nat) : ℚ) := by
      exact_mod_cast hdm.symm
    rw [h]
    ring
  by_cases hneg : round (x * 1000000) < 0
  · have hfmt : formatFloat x
        = 45 :: (natBytes ((round (x * 1000000)).natAbs / 1000000)
            ++ 46 :: fracBytes ((round (x * 1000000)).natAbs % 1000000)) := by
      simp [formatFloat, hneg]
    rw [hfmt, hsb.2, hqr]
    have habs : ((round (x * 1000000)).natAbs : ℤ) = -(round (x * 1000000)) :=
      Int.ofNat_natAbs_of_nonpos (le_of_lt hneg)
    have : (((round (x * 1000000)).natAbs : Nat) : ℚ)
        = -((round (x * 1000000) : ℤ) : ℚ) := by
      rw [← @Int.cast_natCast ℚ _ _, habs]
      push_cast
      ring
    rw [this]
    ring
  · have hfmt : formatFloat x
        = natBytes ((round (x * 1000000)).natAbs / 1000000)
            ++ 46 :: fracBytes ((round (x * 1000000)).natAbs % 1000000) := by
      simp [formatFloat, hneg]
    rw [hfmt, hsb.1, hqr]
    have habs : ((round (x * 1000000)).natAbs : ℤ) = round (x * 1000000) :=
      Int.natAbs_of_nonneg (not_lt.mp hneg)
    rw [← @Int.cast_natCast ℚ _ _, habs]

theorem not_mem_formatFloat (x : ℚ) : 44 ∉ formatFloat x := by
  intro h
  simp only [formatFloat] at h
  rcases List.mem_append.mp h with h1 | h2
  · rcases List.mem_append.mp h1 with ha | hb
    · split at ha <;> simp at ha
    · have := mem_natBytes_bounds hb
      omega
  · rcases List.mem_cons.mp h2 with h3 | h4
    · simp at h3
    · have := mem_fracBytes_bounds h4
      omega

theorem splitOnComma_no_comma : ∀ (p : List Nat), 44 ∉ p → splitOnComma p = [p]
  | [], _ => rfl
  | c :: cs, h => by
    have hc : c ≠ 44 := fun e => h (by simp [e])
    have ih := splitOnComma_no_comma cs fun hm => h (List.mem_cons_of_mem c hm)
    simp [splitOnComma, ih, hc]

theorem splitOnComma_append_comma :
    ∀ (p : List Nat), 44 ∉ p → ∀ (t : List Nat),
      splitOnComma (p ++ 44 :: t) = p :: splitOnComma t
  | [], _, t => by
    cases h : splitOnComma t with
    | nil => exact absurd h (splitOnComma_ne_nil t)
    | cons u us => simp [splitOnComma, h]
  | c :: cs, h, t => by
    have hc : c ≠ 44 := fun e => h (by simp [e])
    have ih := splitOnComma_append_comma cs
      (fun hm => h (List.mem_cons_of_mem c hm)) t
    cases hs : splitOnComma t with
    | nil => exact absurd hs (splitOnComma_ne_nil t)
    | cons u us =>
      rw [hs] at ih
      simp [splitOnComma, ih, hc, hs]

theorem splitOnComma_joinWithComma :
    ∀ (parts : List (List Nat)), parts ≠ [] → (∀ p ∈ parts, 44 ∉ p) →
      splitOnComma (joinWithComma parts) = parts
  | [], h, _ => absurd rfl h
  | [p], _, hc => by
    simp [joinWithComma, splitOnComma_no_comma p (hc p (by simp))]
  | p :: q :: ps, _, hc => by
    have ih := splitOnComma_joinWithComma (q :: ps) (by simp)
      fun u hu => hc u (List.mem_cons_of_mem p hu)
    simp only [joinWithComma]
    rw [splitOnComma_append_comma p (hc p (by simp)), ih]

theorem decode_encode (v : List ℚ) (hv : v ≠ []) :
    decodeEmbedding (encodeEmbedding v)
      = v.map fun y => ((round (y * 1000000) : ℤ) : ℚ) / 1000000 := by
  unfold decodeEmbedding encodeEmbedding
  rw [splitOnComma_joinWithComma (v.map formatFloat) (by simpa using hv)
    (fun p hp => by
      obtain ⟨y, hy, rfl⟩ := List.mem_map.mp hp
      exact not_mem_formatFloat y)]
  rw [List.map_map]
  exact List.map_congr_left fun y hy => parseFloat_formatFloat y

theorem roundTrip_close (y : ℚ) :
    |((round (y * 1000000) : ℤ) : ℚ) / 1000000 - y| ≤ 1 / 2000000 := by
  have h := abs_sub_round (y * 1000000)
  have heq : ((round (y * 1000000) : ℤ) : ℚ) / 1000000 - y
      = -((y * 1000000 - ((round (y * 1000000) : ℤ) : ℚ)) / 1000000) := by
    ring
  rw [heq, abs_neg, abs_div, abs_of_pos (show (0 : ℚ) < 1000000 by norm_num)]
  linarith [h]

/-- C7: for every non-empty vector, decoding the encoded blob recovers
exactly the componentwise rounding of the input to six decimal places —
the precision of the `%f` text representation — so the round-trip error of
each component is at most 5·10⁻⁷ and the length is preserved. -/
theorem codec_roundtrip (v : List ℚ) (hv : v ≠ []) :
    decodeEmbedding (encodeEmbedding v)
        = (v.map fun y => ((round (y * 1000000) : ℤ) : ℚ) / 1000000)
    ∧ (decodeEmbedding (encodeEmbedding v)).length = v.length
    ∧ ∀ y ∈ v, |((round (y * 1000000) : ℤ) : ℚ) / 1000000 - y| ≤ 1 / 2000000 :=
  ⟨decode_encode v hv,
    by rw [decode_encode v hv]; simp,
    fun y _ => roundTrip_close y⟩

/-- Witness for C7 at a concrete vector. -/
theorem codec_roundtrip_witness :
    decodeEmbedding (encodeEmbedding [(1 : ℚ) / 2])
      = ([(1 : ℚ) / 2].map fun y => ((round (y * 1000000) : ℤ) : ℚ) / 1000000) :=
  (codec_roundtrip [(1 : ℚ) / 2] (by decide)).1

end PKA
